import Mathlib

/-!
# Verification of the casspeed speed-measurement core

A shallow embedding, in Lean 4, of the speed-test engine of the
`casapps/casspeed` repository: the admission-control middleware
(`Server.rateLimitMiddleware` in `src/server/server.go`), the latency
prober (`SpeedTestService.testPing`), the transfer phases
(`SpeedTestService.testDownload` / `testUpload`), the orchestrator
(`SpeedTestService.RunTest`) and the WebSocket session handler
(`SpeedTestHandler.TestStatus` in `src/server/handler/speedtest.go`).

Modelling conventions:
* Go `float64` arithmetic is embedded as exact arithmetic over `ℚ`
  (square roots, needed only for the jitter value, are taken in `ℝ`
  inside theorem statements);
* wall-clock instants are rationals measured in seconds, with the Go
  zero time `time.Time{}` embedded as `0`;
* the per-IP rate-limit table (`map[string]*ipRateLimit`) is an
  association list keyed by the client address;
* the concurrent parts (worker pool, 200 ms metrics sampler, buffered
  progress channel of capacity 10) are embedded as deterministic traces
  under the schedule in which sampler emissions of a phase are delivered
  while that phase runs and ticks fire exactly on their 200 ms grid.
-/

namespace Casspeed

/-! ## Admission control (`Server.rateLimitMiddleware`, server.go:290-336)

The middleware guards the paths `/api/v1/speedtest/ws` and
`/api/v1/speedtest/start`.  Per client IP it keeps
`ipRateLimit{activeTests int; lastTest time.Time}` in a shared map,
creating a zero-valued entry on first sight, and admits a request iff
`activeTests < MaxConcurrent` and at least `MinInterval` seconds passed
since `lastTest`; on admission it increments `activeTests` and stamps
`lastTest`, and a deferred handler decrements `activeTests` afterwards. -/

/-- Embeds Go's `ipRateLimit` struct: `activeTests int; lastTest time.Time`
(`lastTest` in seconds since the zero time, which is `0`). -/
structure ipRateLimit where
  activeTests : ℤ
  lastTest : ℚ
  deriving DecidableEq, Repr

/-- The two knobs read by the middleware: `Config.Test.MaxConcurrent` and
`Config.Test.MinInterval` (config validation requires `MaxConcurrent ≥ 1`
and `MinInterval ≥ 0`). -/
structure TestConfig where
  maxConcurrent : ℤ
  minInterval : ℤ
  deriving DecidableEq, Repr

/-- The rate-limit table `Server.ipTestCount : map[string]*ipRateLimit`
as an association list. -/
abbrev IPMap := List (String × ipRateLimit)

/-- Outcome of one pass through the middleware for a guarded path:
admitted, rejected with "Too many concurrent tests", or rejected with
"Test interval too short" carrying the computed `Retry-After` value. -/
inductive AdmitDecision where
  | admitted : AdmitDecision
  | rejectedConcurrent : AdmitDecision
  | rejectedInterval : ℤ → AdmitDecision
  deriving DecidableEq, Repr

/-- Go's `int(x)` conversion from `float64`: truncation toward zero. -/
def goTrunc (q : ℚ) : ℤ := if 0 ≤ q then ⌊q⌋ else -⌊-q⌋

/-- The map read `s.ipTestCount[clientIP]`: the first binding of the key,
if any. -/
def findSlot : IPMap → String → Option ipRateLimit
  | [], _ => none
  | (k, w) :: rest, ip => if k = ip then some w else findSlot rest ip

/-- Store a value under a key in the table, replacing the first binding of
that key if present (the map write `s.ipTestCount[clientIP] = limit`). -/
def setSlot : IPMap → String → ipRateLimit → IPMap
  | [], ip, v => [(ip, v)]
  | (k, w) :: rest, ip, v =>
      if k = ip then (k, v) :: rest else (k, w) :: setSlot rest ip v

/-- The admission decision of `rateLimitMiddleware` for one request on a
guarded path, together with the updated table.  Mirrors server.go:297-324:
look up (or create, zero-valued) the client's slot; reject on
`activeTests >= MaxConcurrent`; else reject when
`secondsSinceLastTest < MinInterval`, with
`Retry-After = int(MinInterval - secondsSinceLastTest)`; else increment
`activeTests` and set `lastTest = now`. -/
def rateLimitAdmit (cfg : TestConfig) (m : IPMap) (ip : String) (now : ℚ) :
    AdmitDecision × IPMap :=
  let limit := ((findSlot m ip).getD ⟨0, 0⟩)
  let m1 := setSlot m ip limit
  if cfg.maxConcurrent ≤ limit.activeTests then
    (.rejectedConcurrent, m1)
  else
    let elapsed := now - limit.lastTest
    if elapsed < (cfg.minInterval : ℚ) then
      (.rejectedInterval (goTrunc ((cfg.minInterval : ℚ) - elapsed)), m1)
    else
      (.admitted, setSlot m1 ip ⟨limit.activeTests + 1, now⟩)

/-- The deferred release at server.go:326-332: when the request finishes,
decrement `activeTests` of the client's slot if the slot still exists. -/
def releaseSlot (m : IPMap) (ip : String) : IPMap :=
  match findSlot m ip with
  | none => m
  | some l => setSlot m ip ⟨l.activeTests - 1, l.lastTest⟩

/-- The `(activeTests, lastTest)` pair the middleware would observe for a
client: the stored slot, or the zero-valued slot it creates for an unseen
client. -/
def slotView (m : IPMap) (ip : String) : ℤ × ℚ :=
  match findSlot m ip with
  | none => (0, 0)
  | some l => (l.activeTests, l.lastTest)

/-- The table-wide concurrency invariant: every stored slot's
`activeTests` is at most the configured ceiling. -/
def ConcurrencyInv (cfg : TestConfig) (m : IPMap) : Prop :=
  ∀ p ∈ m, (p.2).activeTests ≤ cfg.maxConcurrent

instance (cfg : TestConfig) (m : IPMap) : Decidable (ConcurrencyInv cfg m) := by
  unfold ConcurrencyInv; infer_instance

end Casspeed

namespace Casspeed

/-! ### Basic lemmas about the table -/

lemma findSlot_setSlot (m : IPMap) (ip ip' : String) (v : ipRateLimit) :
    findSlot (setSlot m ip v) ip' = if ip = ip' then some v else findSlot m ip' := by
  induction m with
  | nil => simp [setSlot, findSlot]
  | cons hd tl ih =>
      obtain ⟨k, w⟩ := hd
      by_cases hk : k = ip
      · subst hk
        by_cases h : k = ip'
        · subst h; simp [setSlot, findSlot]
        · simp [setSlot, findSlot, h]
      · by_cases h : k = ip'
        · subst h
          have hik : ¬ ip = k := fun hc => hk hc.symm
          simp [setSlot, findSlot, hk, hik]
        · simp [setSlot, findSlot, hk, h, ih]

lemma mem_setSlot {m : IPMap} {ip : String} {v : ipRateLimit} {p : String × ipRateLimit}
    (hp : p ∈ setSlot m ip v) : p = (ip, v) ∨ p ∈ m := by
  induction m with
  | nil => simpa [setSlot] using hp
  | cons hd tl ih =>
      obtain ⟨k, w⟩ := hd
      by_cases hk : k = ip
      · subst hk
        simp only [setSlot, if_pos rfl] at hp
        rcases List.mem_cons.mp hp with h | h
        · exact Or.inl (by simpa using h)
        · exact Or.inr (List.mem_cons_of_mem _ h)
      · simp only [setSlot, if_neg hk] at hp
        rcases List.mem_cons.mp hp with h | h
        · exact Or.inr (List.mem_cons.mpr (Or.inl h))
        · rcases ih h with h1 | h1
          · exact Or.inl h1
          · exact Or.inr (List.mem_cons_of_mem _ h1)

/-! ## Latency prober (`SpeedTestService.testPing`, server.go:405-441)

The Go loop takes `samples = 10` round-trip measurements; iteration `i`
measures `elapsed` in whole milliseconds and counts it as successful iff
`elapsed > 0`.  The timing outcomes are the only nondeterministic input,
so the embedding takes the list of measured `elapsed` values (one per
loop iteration) as a parameter.  The code's `jitterMs` is
`math.Sqrt(variance / len(pings))`; the embedding returns the radicand
(the population variance) exactly, and theorems take the square root
in `ℝ`. -/

/-- The successful samples: measurements with `elapsed > 0`, as `float64`
values (`pings = append(pings, float64(elapsed))`). -/
def pingsOf (elapsedMs : List ℤ) : List ℚ :=
  (elapsedMs.filter (fun e => 0 < e)).map (fun e => (Int.cast e : ℚ))

/-- `SpeedTestService.testPing`, parameterized by the list of measured
round-trip times (`samples = elapsedMs.length`, fixed to 10 by the code's
`const samples = 10`).  Returns `(avgMs, jitterSqMs, packetLoss)` where
`jitterSqMs` is the radicand of the code's
`jitterMs = math.Sqrt(variance / float64(len(pings)))`.  If no sample
succeeded it returns `(0, 0, 100)` (server.go:422-424). -/
def testPing (elapsedMs : List ℤ) : ℚ × ℚ × ℚ :=
  let samples := elapsedMs.length
  let pings := pingsOf elapsedMs
  let successful := pings.length
  if pings = [] then (0, 0, 100)
  else
    let sum := pings.sum
    let avgMs := sum / (successful : ℚ)
    let variance := (pings.map (fun p => (p - avgMs) ^ 2)).sum
    let jitterSqMs := variance / (successful : ℚ)
    let packetLoss := ((samples : ℚ) - (successful : ℚ)) / (samples : ℚ) * 100
    (avgMs, jitterSqMs, packetLoss)

/-- Modelled from the spec: the arithmetic mean of the successful
samples ("mean is the arithmetic mean of successful samples"). -/
def specMean (xs : List ℚ) : ℚ := xs.sum / (xs.length : ℚ)

/-- Modelled from the spec: the population variance of the successful
samples — the square of the "population standard deviation of successful
round-trip times". -/
def specPopVariance (xs : List ℚ) : ℚ :=
  (xs.map (fun x => (x - specMean xs) ^ 2)).sum / (xs.length : ℚ)

/-- Modelled from the spec: `packetLossPct = (samples − successes) /
samples × 100`. -/
def specLossPct (samples successes : ℕ) : ℚ :=
  ((samples : ℚ) - (successes : ℚ)) / (samples : ℚ) * 100

/-! ## Transfer phases (`testDownload` server.go:443-498, `testUpload`
server.go:500-555)

Each worker goroutine repeatedly adds `len(buffer) = chunkSize` to the
mutex-guarded shared counter `totalBytes`, once per loop iteration, until
the deadline; the function finally returns
`mbps = float64(totalBytes)*8/elapsed/1e6` where `elapsed` is the actual
wall-clock time `time.Since(startTime).Seconds()` after `wg.Wait()`.
The embedding takes each worker's iteration count and the actual elapsed
time as parameters. -/

/-- Bytes one worker contributes: `iterations` traversals of the loop
body `totalBytes += int64(len(buffer))` (server.go:457-463). -/
def workerBytes (chunkSize : ℕ) (iterations : ℕ) : ℕ :=
  (List.range iterations).foldl (fun acc _ => acc + chunkSize) 0

/-- Final value of the shared counter `totalBytes`: the contributions of
all workers in the phase's pool. -/
def phaseTotalBytes (chunkSize : ℕ) (iters : List ℕ) : ℕ :=
  (iters.map (workerBytes chunkSize)).sum

/-- The throughput the phase returns:
`mbps := (float64(totalBytes) * 8) / elapsed / 1_000_000`
(server.go:495). -/
def phaseMbps (totalBytes : ℕ) (elapsedSec : ℚ) : ℚ :=
  ((totalBytes : ℚ) * 8) / elapsedSec / 1000000

/-- `SpeedTestService.testDownload`'s return value, given each download
worker's iteration count and the actual elapsed wall-clock seconds. -/
def testDownload (chunkSize : ℕ) (iters : List ℕ) (elapsedSec : ℚ) : ℚ :=
  phaseMbps (phaseTotalBytes chunkSize iters) elapsedSec

/-- `SpeedTestService.testUpload`'s return value: the upload loop body
(server.go:509-521, 550-552) is textually identical to the download one. -/
def testUpload (chunkSize : ℕ) (iters : List ℕ) (elapsedSec : ℚ) : ℚ :=
  phaseMbps (phaseTotalBytes chunkSize iters) elapsedSec

/-! ## Progress protocol (`ProgressUpdate`, server.go:373-378)

```go
type ProgressUpdate struct {
    Stage    string  `json:"stage"`
    Progress float64 `json:"progress"`
    Speed    float64 `json:"speed"`
    Message  string  `json:"message"`
}
```
`conn.WriteJSON(update)` serializes it with `encoding/json`: every field
is always present, under the key of its struct tag. -/

/-- Embeds the `ProgressUpdate` struct. -/
structure ProgressUpdate where
  stage : String
  progress : ℚ
  speed : ℚ
  message : String
  deriving DecidableEq, Repr

/-- A JSON scalar as produced for a `ProgressUpdate` field: a string or a
number. -/
inductive JVal where
  | str : String → JVal
  | num : ℚ → JVal
  deriving DecidableEq, Repr

/-- The serialized form of a `ProgressUpdate` under `encoding/json`: the
ordered field list keyed by the struct tags (no `omitempty`, so all four
fields are always emitted). -/
def serializeProgressUpdate (u : ProgressUpdate) : List (String × JVal) :=
  [("stage", .str u.stage), ("progress", .num u.progress),
   ("speed", .num u.speed), ("message", .str u.message)]

/-- Abstraction of `fmt.Sprintf` with the `%.1f Mbps` verb
(server.go:488): the message text is never used for control, only its
presence as a string field matters to the spec. -/
def formatMbps (q : ℚ) : String := toString q ++ " Mbps"

/-! ## Metrics sampler (server.go:467-491 download, 524-548 upload)

A goroutine ticks every 200 ms; on a tick at elapsed time `t` it returns
if `t` is past the phase deadline, else emits a `ProgressUpdate` with
`progress = elapsed/durationSec` clamped to 1.0 and
`speed = totalBytes*8/elapsed/1e6`.  The deterministic embedding places
tick `k` (starting from `k = 0`) at elapsed time `(k+1)/5` seconds, so a
phase of `d` whole seconds emits exactly `5*d` sampler updates, the last
one exactly at the deadline (the guard `time.Now().After(endTime)` is
strict).  Cumulative counter readings are a parameter
`bytes : ℕ → ℕ` (tick index to `totalBytes` read under the mutex). -/

/-- Elapsed seconds at the sampler's tick number `k` (0-based): ticks fire
every 200 ms starting 200 ms after the phase begins. -/
def tickElapsed (k : ℕ) : ℚ := ((k : ℚ) + 1) / 5

/-- The clamp at server.go:476-479:
`progress := elapsed / float64(durationSec); if progress > 1.0 { progress = 1.0 }`. -/
def clampProgress (elapsed : ℚ) (durationSec : ℕ) : ℚ :=
  if elapsed / (durationSec : ℚ) > 1 then 1 else elapsed / (durationSec : ℚ)

/-- The `ProgressUpdate` the sampler emits at tick `k`
(server.go:484-489). -/
def samplerUpdate (stage : String) (durationSec : ℕ) (bytes : ℕ → ℕ) (k : ℕ) :
    ProgressUpdate :=
  let speed := ((bytes k : ℚ) * 8) / tickElapsed k / 1000000
  { stage := stage
    progress := clampProgress (tickElapsed k) durationSec
    speed := speed
    message := formatMbps speed }

/-- All sampler emissions of one transfer phase of `durationSec` seconds:
ticks `0, …, 5*durationSec - 1`; ticks after the deadline emit nothing
(the goroutine returns). -/
def samplerUpdates (stage : String) (durationSec : ℕ) (bytes : ℕ → ℕ) :
    List ProgressUpdate :=
  (List.range (5 * durationSec)).map (samplerUpdate stage durationSec bytes)

/-! ## Orchestrator and session traces (`RunTest` server.go:380-403,
`TestStatus` speedtest.go:46-95)

`RunTest` synchronously sends, in program order: the two `"ping"`
updates around `testPing`, the `"download"` start update, (concurrently,
the download sampler's updates), the `"download"` end update, the
`"upload"` start update, (the upload sampler's updates), the `"upload"`
end update, and one `"complete"` update.  `TestStatus` then sends a
second, final `"complete"` update after persisting the result
(speedtest.go:81-86).  The trace fixes the schedule in which each
sampler's emissions are delivered inside its own phase. -/

/-- The sequence of `ProgressUpdate`s `RunTest` causes to be sent on
`progressChan`, parameterized by the phase duration, the measured
metrics, and the two samplers' counter readings. -/
def runTestTrace (durationSec : ℕ) (pingMs dlMbps ulMbps : ℚ)
    (dlBytes ulBytes : ℕ → ℕ) : List ProgressUpdate :=
  [⟨"ping", 0, 0, "Starting ping test"⟩,
   ⟨"ping", 1, pingMs, "Ping test complete"⟩,
   ⟨"download", 0, 0, "Starting download test"⟩] ++
  samplerUpdates "download" durationSec dlBytes ++
  [⟨"download", 1, dlMbps, "Download test complete"⟩,
   ⟨"upload", 0, 0, "Starting upload test"⟩] ++
  samplerUpdates "upload" durationSec ulBytes ++
  [⟨"upload", 1, ulMbps, "Upload test complete"⟩,
   ⟨"complete", 1, 0, "Test complete"⟩]

/-- Everything a `TestStatus` session sends on `progressChan`: the
`RunTest` trace followed by the handler's own `finalUpdate`
(speedtest.go:81-86), which is a second `"complete"` update. -/
def sessionTrace (durationSec : ℕ) (pingMs dlMbps ulMbps : ℚ)
    (dlBytes ulBytes : ℕ → ℕ) : List ProgressUpdate :=
  runTestTrace durationSec pingMs dlMbps ulMbps dlBytes ulBytes ++
  [⟨"complete", 1, 0, "Test complete"⟩]

/-- Position of a stage in the intended `ping → download → upload →
complete` order. -/
def stageRank (stage : String) : ℕ :=
  if stage = "ping" then 0
  else if stage = "download" then 1
  else if stage = "upload" then 2
  else 3

/-! ## Disconnected-sink dynamics (`TestStatus` loop speedtest.go:90-94)

`progressChan` is buffered with capacity 10 (speedtest.go:54) and its
only reader is the loop `for update := range progressChan { if err :=
conn.WriteJSON(update); err != nil { return } }`.  After a WebSocket
write fails the loop returns and nothing ever reads the channel again,
while the `RunTest` goroutine keeps running: a send then succeeds iff the
buffer holds fewer than 10 items, and blocks the sender forever
otherwise.  `afterDownloadDisconnect` follows the sends the test
goroutine performs after the reader died during the download phase, in
the schedule where a phase's sampler gets its ticks (5 per second of
phase, far more than the 10 needed to fill the buffer) before the
post-phase sends. -/

/-- Capacity of `progressChan` (speedtest.go:54). -/
def progressChanCap : ℕ := 10

/-- One channel send with no reader: succeeds (buffer grows) iff the
buffer is not full; `none` means the sending goroutine blocks forever. -/
def trySend (buf : ℕ) : Option ℕ :=
  if buf < progressChanCap then some (buf + 1) else none

/-- What happens after the progress sink disconnects during the download
phase, given `pending` buffered updates at that moment, the worker-pool
size `maxThreads`, and the phase duration: the pair
`(upload workers spawned, CreateSpeedTest invoked)`.  The test goroutine
still sends "Download test complete" and "Starting upload test"; if both
fit in the buffer, `testUpload` runs and spawns its full worker pool,
and its sampler then attempts `5*durationSec` sends; `CreateSpeedTest`
(speedtest.go:79) runs only if the test goroutine also gets its
"Upload test complete" and "complete" sends through. -/
def afterDownloadDisconnect (pending maxThreads durationSec : ℕ) : ℕ × Bool :=
  match trySend pending with
  | none => (0, false)
  | some b1 =>
    match trySend b1 with
    | none => (0, false)
    | some b2 =>
      let b3 := min progressChanCap (b2 + 5 * durationSec)
      match trySend b3 with
      | none => (maxThreads, false)
      | some b4 =>
        match trySend b4 with
        | none => (maxThreads, false)
        | some _ => (maxThreads, true)

/-! ## Helper lemmas -/

lemma findSlot_mem {m : IPMap} {ip : String} {l : ipRateLimit}
    (h : findSlot m ip = some l) : (ip, l) ∈ m := by
  induction m with
  | nil => simp [findSlot] at h
  | cons hd tl ih =>
      obtain ⟨k, w⟩ := hd
      by_cases hk : k = ip
      · subst hk
        have h2 : w = l := by simpa [findSlot] using h
        subst h2
        exact List.mem_cons_self _ _
      · simp only [findSlot, if_neg hk] at h
        exact List.mem_cons_of_mem _ (ih h)

lemma slotView_setSlot_default (m : IPMap) (ip ip' : String) :
    slotView (setSlot m ip ((findSlot m ip).getD ⟨0, 0⟩)) ip' = slotView m ip' := by
  unfold slotView
  rw [findSlot_setSlot]
  by_cases h : ip = ip'
  · subst h
    cases hf : findSlot m ip <;> simp [hf]
  · simp [h]

/-! ## Claim theorems: admission control -/

/-- C10.  A rejected admission attempt leaves the admission state
unchanged: whenever `rateLimitMiddleware` refuses a request (for the
concurrency or for the interval reason), every client's observable
`(activeTests, lastTest)` pair is the same before and after the attempt,
so a rejection neither consumes a concurrency slot nor postpones the time
at which a retry would be admitted. -/
theorem rateLimit_reject_frame (cfg : TestConfig) (m : IPMap) (ip : String)
    (now : ℚ) (hrej : (rateLimitAdmit cfg m ip now).1 ≠ .admitted) :
    ∀ ip' : String, slotView (rateLimitAdmit cfg m ip now).2 ip' = slotView m ip' := by
  intro ip'
  by_cases h1 : cfg.maxConcurrent ≤ ((findSlot m ip).getD ⟨0, 0⟩).activeTests
  · simp only [rateLimitAdmit, if_pos h1]
    exact slotView_setSlot_default m ip ip'
  · by_cases h2 : now - ((findSlot m ip).getD ⟨0, 0⟩).lastTest < (cfg.minInterval : ℚ)
    · simp only [rateLimitAdmit, if_neg h1, if_pos h2]
      exact slotView_setSlot_default m ip ip'
    · exact absurd (by simp [rateLimitAdmit, if_neg h1, if_neg h2]) hrej

/-- Witness for C10: a concrete rejected attempt (slot at its ceiling)
whose observable state is untouched. -/
theorem rateLimit_reject_frame_witness :
    slotView (rateLimitAdmit ⟨1, 0⟩ [("c", ⟨1, 0⟩)] "c" 7).2 "c" =
      slotView [("c", ⟨1, 0⟩)] "c" :=
  rateLimit_reject_frame ⟨1, 0⟩ [("c", ⟨1, 0⟩)] "c" 7 (by decide) "c"

/-- The 4-step concurrent-admission scenario of C3, at
`MaxConcurrent = 3`, `MinInterval = 0`: three concurrent admissions for
the same client at time 100. -/
def admit1 : AdmitDecision × IPMap := rateLimitAdmit ⟨3, 0⟩ [] "client" 100

/-- Second concurrent admission attempt of the C3 scenario. -/
def admit2 : AdmitDecision × IPMap := rateLimitAdmit ⟨3, 0⟩ admit1.2 "client" 100

/-- Third concurrent admission attempt of the C3 scenario. -/
def admit3 : AdmitDecision × IPMap := rateLimitAdmit ⟨3, 0⟩ admit2.2 "client" 100

/-- Fourth concurrent admission attempt of the C3 scenario. -/
def admit4 : AdmitDecision × IPMap := rateLimitAdmit ⟨3, 0⟩ admit3.2 "client" 100

/-- C3.  The per-client concurrency ceiling.  First, one middleware pass
preserves the invariant that no stored slot's `activeTests` exceeds
`MaxConcurrent` (for any non-negative ceiling).  Second, the concrete
scenario: with `MaxConcurrent = 3` (and `MinInterval = 0`, which
concurrent same-instant admissions require), three concurrent admissions
for one client succeed, a fourth concurrent attempt is rejected with the
concurrency reason, and after any release a subsequent attempt is
admitted again. -/
theorem rateLimit_concurrency :
    (∀ (cfg : TestConfig) (m : IPMap) (ip : String) (now : ℚ),
        0 ≤ cfg.maxConcurrent → ConcurrencyInv cfg m →
        ConcurrencyInv cfg (rateLimitAdmit cfg m ip now).2) ∧
    admit1.1 = .admitted ∧ admit2.1 = .admitted ∧ admit3.1 = .admitted ∧
    admit4.1 = .rejectedConcurrent ∧
    (rateLimitAdmit ⟨3, 0⟩ (releaseSlot admit3.2 "client") "client" 100).1 =
      .admitted := by
  constructor
  · intro cfg m ip now hmax hinv
    have hlim : ((findSlot m ip).getD ⟨0, 0⟩).activeTests ≤ cfg.maxConcurrent := by
      cases hf : findSlot m ip with
      | none => simpa [hf] using hmax
      | some l => simpa [hf] using hinv _ (findSlot_mem hf)
    by_cases h1 : cfg.maxConcurrent ≤ ((findSlot m ip).getD ⟨0, 0⟩).activeTests
    · simp only [rateLimitAdmit, if_pos h1]
      intro p hp
      rcases mem_setSlot hp with h | h
      · subst h; exact hlim
      · exact hinv _ h
    · by_cases h2 : now - ((findSlot m ip).getD ⟨0, 0⟩).lastTest < (cfg.minInterval : ℚ)
      · simp only [rateLimitAdmit, if_neg h1, if_pos h2]
        intro p hp
        rcases mem_setSlot hp with h | h
        · subst h; exact hlim
        · exact hinv _ h
      · simp only [rateLimitAdmit, if_neg h1, if_neg h2]
        intro p hp
        rcases mem_setSlot hp with h | h
        · subst h
          simpa using Int.add_one_le_of_lt (lt_of_not_le h1)
        · rcases mem_setSlot h with h3 | h3
          · subst h3; exact hlim
          · exact hinv _ h3
  · refine ⟨?_, ?_, ?_, ?_, ?_⟩ <;>
      norm_num [admit1, admit2, admit3, admit4, rateLimitAdmit, setSlot,
        findSlot, releaseSlot, goTrunc]

/-- Witness for C3's invariant clause: one pass at a full table keeps
every slot at or below the ceiling. -/
theorem rateLimit_concurrency_witness :
    ConcurrencyInv ⟨3, 0⟩ (rateLimitAdmit ⟨3, 0⟩ [("a", ⟨2, 0⟩)] "a" 50).2 :=
  rateLimit_concurrency.1 ⟨3, 0⟩ [("a", ⟨2, 0⟩)] "a" 50 (by decide) (by decide)

/-- C4.  Interval-based rejection.  First, in general: when the client's
slot is under the concurrency ceiling but less than `MinInterval` seconds
elapsed since `lastTest`, the middleware rejects with the interval reason
and the `Retry-After` value `int(MinInterval - elapsed)` — the remaining
wait time.  Second, the concrete scenario with `MinInterval = 5`: an
attempt 2 seconds after the previous admission is rejected carrying
`Retry-After = 3`, and an attempt 6 seconds after it is admitted. -/
theorem rateLimit_interval :
    (∀ (cfg : TestConfig) (l : ipRateLimit) (m : IPMap) (ip : String) (now : ℚ),
        findSlot m ip = some l →
        l.activeTests < cfg.maxConcurrent →
        now - l.lastTest < (cfg.minInterval : ℚ) →
        (rateLimitAdmit cfg m ip now).1 =
          .rejectedInterval (goTrunc ((cfg.minInterval : ℚ) - (now - l.lastTest)))) ∧
    (rateLimitAdmit ⟨3, 5⟩ [("client", ⟨1, 100⟩)] "client" 102).1 =
      .rejectedInterval 3 ∧
    (rateLimitAdmit ⟨3, 5⟩ [("client", ⟨1, 100⟩)] "client" 106).1 = .admitted := by
  refine ⟨?_, ?_, ?_⟩
  · intro cfg l m ip now hf hactive hint
    simp only [rateLimitAdmit, hf, Option.getD_some,
      if_neg (not_le.mpr hactive), if_pos hint]
  · norm_num [rateLimitAdmit, findSlot, goTrunc]
  · norm_num [rateLimitAdmit, findSlot, goTrunc]

/-- Witness for C4's general clause: the concrete slot admitted at 100,
probed again at 102 under `MinInterval = 5`, yields the interval
rejection carrying the remaining 3-second wait. -/
theorem rateLimit_interval_witness :
    (rateLimitAdmit ⟨3, 5⟩ [("client", ⟨1, 100⟩)] "client" 102).1 =
      .rejectedInterval (goTrunc (((5 : ℤ) : ℚ) - (102 - (100 : ℚ)))) :=
  rateLimit_interval.1 ⟨3, 5⟩ ⟨1, 100⟩ [("client", ⟨1, 100⟩)] "client" 102
    (by simp [findSlot]) (by decide) (by norm_num)

/-! ## Claim theorems: latency prober -/

/-- C7.  `testPing` computes its outputs by the reference formulas: when
at least one sample succeeds, the mean is the arithmetic mean of the
successful samples, the jitter is the population standard deviation of
the successful samples (stated on its square, the radicand of the code's
`math.Sqrt`), and the loss is `(samples − successes)/samples × 100`; the
loss always lies in `[0, 100]`; and on the successful samples
`[10, 12, 8, 10]` ms it yields mean 10, jitter `√2 ≈ 1.414` ms and loss
0 %. -/
theorem testPing_reference_formulas :
    (∀ elapsedMs : List ℤ, pingsOf elapsedMs ≠ [] →
        testPing elapsedMs =
          (specMean (pingsOf elapsedMs), specPopVariance (pingsOf elapsedMs),
           specLossPct elapsedMs.length (pingsOf elapsedMs).length)) ∧
    (∀ elapsedMs : List ℤ,
        0 ≤ (testPing elapsedMs).2.2 ∧ (testPing elapsedMs).2.2 ≤ 100) ∧
    testPing [10, 12, 8, 10] = (10, 2, 0) ∧
    Real.sqrt (((testPing [10, 12, 8, 10]).2.1 : ℚ) : ℝ) = Real.sqrt 2 ∧
    (1.414 : ℝ) ≤ Real.sqrt (((testPing [10, 12, 8, 10]).2.1 : ℚ) : ℝ) ∧
    Real.sqrt (((testPing [10, 12, 8, 10]).2.1 : ℚ) : ℝ) < (1.415 : ℝ) := by
  have hconc : testPing [10, 12, 8, 10] = (10, 2, 0) := by
    norm_num [testPing, pingsOf, List.filter]
    decide
  have hsqrt2 : Real.sqrt (((testPing [10, 12, 8, 10]).2.1 : ℚ) : ℝ) = Real.sqrt 2 := by
    rw [hconc]
    norm_num
  refine ⟨?_, ?_, hconc, hsqrt2, ?_, ?_⟩
  · intro elapsedMs hne
    simp only [testPing, if_neg hne, specMean, specPopVariance, specLossPct]
  · intro elapsedMs
    by_cases hne : pingsOf elapsedMs = []
    · simp [testPing, hne]
    · have hlen : (pingsOf elapsedMs).length ≤ elapsedMs.length := by
        calc (pingsOf elapsedMs).length
            = (elapsedMs.filter (fun e => 0 < e)).length := List.length_map _ _
          _ ≤ elapsedMs.length := List.length_filter_le _ _
      have hpos : 0 < (elapsedMs.length : ℚ) := by
        have h0 : elapsedMs ≠ [] := by
          intro h; exact hne (by simp [pingsOf, h])
        have := List.length_pos.mpr h0
        exact_mod_cast this
      simp only [testPing, if_neg hne]
      constructor
      · apply mul_nonneg _ (by norm_num)
        apply div_nonneg _ (le_of_lt hpos)
        have : ((pingsOf elapsedMs).length : ℚ) ≤ (elapsedMs.length : ℚ) := by
          exact_mod_cast hlen
        linarith
      · have hfrac :
            ((elapsedMs.length : ℚ) - ((pingsOf elapsedMs).length : ℚ)) /
              (elapsedMs.length : ℚ) ≤ 1 := by
          rw [div_le_one hpos]
          have : (0 : ℚ) ≤ ((pingsOf elapsedMs).length : ℚ) := by positivity
          linarith
        calc ((elapsedMs.length : ℚ) - ((pingsOf elapsedMs).length : ℚ)) /
              (elapsedMs.length : ℚ) * 100
            ≤ 1 * 100 := by
              apply mul_le_mul_of_nonneg_right hfrac (by norm_num)
          _ = 100 := by norm_num
  · rw [hsqrt2]
    nlinarith [Real.sq_sqrt (show (0 : ℝ) ≤ 2 by norm_num), Real.sqrt_nonneg 2]
  · rw [hsqrt2]
    have h2 : (2 : ℝ) < 1.415 ^ 2 := by norm_num
    exact (Real.sqrt_lt' (by norm_num)).mpr h2

/-- Witness for C7: the reference-formula clause applied to the concrete
sample list `[10, 12, 8, 10]`. -/
theorem testPing_reference_formulas_witness :
    testPing [10, 12, 8, 10] =
      (specMean (pingsOf [10, 12, 8, 10]), specPopVariance (pingsOf [10, 12, 8, 10]),
       specLossPct ([10, 12, 8, 10] : List ℤ).length (pingsOf [10, 12, 8, 10]).length) :=
  testPing_reference_formulas.1 [10, 12, 8, 10] (by decide)

/-- C8.  If zero latency samples succeed, `testPing` returns the defined
triple `(0, 0, 100)` rather than an error: with `sampleCount = 10` and
every probe failing its `elapsed > 0` success test, the result is exactly
`(0, 0, 100)`. -/
theorem testPing_all_failed (elapsedMs : List ℤ)
    (_hlen : elapsedMs.length = 10) (hfail : ∀ e ∈ elapsedMs, ¬ 0 < e) :
    testPing elapsedMs = (0, 0, 100) := by
  have hnil : pingsOf elapsedMs = [] := by
    have hfe : elapsedMs.filter (fun e => 0 < e) = [] :=
      List.filter_eq_nil_iff.mpr (fun e he => by simpa using hfail e he)
    simp [pingsOf, hfe]
  simp [testPing, hnil]

/-- Witness for C8: ten probes all measuring a non-positive elapsed time
give exactly `(0, 0, 100)`. -/
theorem testPing_all_failed_witness :
    testPing (List.replicate 10 0) = (0, 0, 100) :=
  testPing_all_failed (List.replicate 10 0) (by decide) (by decide)

/-! ## Claim theorems: transfer throughput -/

lemma workerBytes_eq (chunkSize iterations : ℕ) :
    workerBytes chunkSize iterations = iterations * chunkSize := by
  induction iterations with
  | zero => simp [workerBytes]
  | succ n ih =>
      unfold workerBytes at ih ⊢
      rw [List.range_succ, List.foldl_append, ih]
      simp [Nat.succ_mul]

lemma phaseTotalBytes_eq (chunkSize : ℕ) (iters : List ℕ) :
    phaseTotalBytes chunkSize iters = iters.sum * chunkSize := by
  induction iters with
  | nil => simp [phaseTotalBytes]
  | cons n tl ih =>
      simp only [phaseTotalBytes, List.map_cons, List.sum_cons, workerBytes_eq] at ih ⊢
      rw [ih, Nat.add_mul]

/-- C6.  A transfer phase returns the average throughput computed from
the final value of the shared byte counter and the elapsed time.  In
general, for any chunk size, worker iteration counts and actual elapsed
wall-clock seconds, both `testDownload` and `testUpload` return
`totalBytes*8/elapsed/1e6`; and in the claim's deterministic scenario
(chunk size 1 MiB, workers completing `N` chunks in total, actual
elapsed time equal to the nominal 10 s) the result is exactly
`(N × 1 MiB × 8) / 10 / 1e6`. -/
theorem transfer_throughput :
    (∀ (chunkSize : ℕ) (iters : List ℕ) (elapsedSec : ℚ),
        testDownload chunkSize iters elapsedSec =
          ((phaseTotalBytes chunkSize iters : ℚ) * 8) / elapsedSec / 1000000 ∧
        testUpload chunkSize iters elapsedSec =
          testDownload chunkSize iters elapsedSec) ∧
    (∀ (N : ℕ) (iters : List ℕ), iters.sum = N →
        testDownload 1048576 iters 10 = ((N : ℚ) * 1048576 * 8) / 10 / 1000000 ∧
        testUpload 1048576 iters 10 = ((N : ℚ) * 1048576 * 8) / 10 / 1000000) := by
  constructor
  · intro chunkSize iters elapsedSec
    exact ⟨rfl, rfl⟩
  · intro N iters hsum
    have h : testDownload 1048576 iters 10 = ((N : ℚ) * 1048576 * 8) / 10 / 1000000 := by
      unfold testDownload phaseMbps
      rw [phaseTotalBytes_eq, hsum]
      push_cast
      ring_nf
    exact ⟨h, h⟩

/-- Witness for C6: two workers completing 2 and 3 one-MiB chunks over
the nominal 10 seconds yield exactly `(5 × 1 MiB × 8)/10/1e6` Mbps. -/
theorem transfer_throughput_witness :
    testDownload 1048576 [2, 3] 10 = ((5 : ℚ) * 1048576 * 8) / 10 / 1000000 :=
  (transfer_throughput.2 5 [2, 3] (by decide)).1

/-! ## Claim theorems: sampler progress -/

lemma clampProgress_tick_eq {k d : ℕ} (hk : k < 5 * d) :
    clampProgress (tickElapsed k) d = ((k : ℚ) + 1) / (5 * (d : ℚ)) := by
  have hd : 0 < d := by omega
  have hdq : (0 : ℚ) < (d : ℚ) := by exact_mod_cast hd
  have heq : tickElapsed k / (d : ℚ) = ((k : ℚ) + 1) / (5 * (d : ℚ)) := by
    unfold tickElapsed
    rw [div_div]
  have hle : ((k : ℚ) + 1) / (5 * (d : ℚ)) ≤ 1 := by
    rw [div_le_one (by positivity)]
    have hk1 : (k : ℚ) + 1 ≤ 5 * (d : ℚ) := by exact_mod_cast hk
    exact hk1
  unfold clampProgress
  rw [heq, if_neg (not_lt.mpr hle)]

/-- C9.  Within a single transfer stage, the progress values emitted by
the periodic sampler form a non-decreasing sequence ending at 1.0, and
the `k`-th sampled progress equals `elapsed/durationSec` clamped to 1.0
(with `elapsed = (k+1)·200 ms`).  Both transfer stages use the same
sampler (server.go:467-491 and 524-548 are identical up to the stage
string). -/
theorem sampler_progress (stage : String) (d : ℕ) (bytes : ℕ → ℕ)
    (hd : 1 ≤ d) :
    List.Chain' (· ≤ ·) ((samplerUpdates stage d bytes).map (fun u => u.progress)) ∧
    ((samplerUpdates stage d bytes).map (fun u => u.progress)).getLast? = some 1 ∧
    ∀ k, k < 5 * d →
      ((samplerUpdates stage d bytes).map (fun u => u.progress))[k]? =
        some (clampProgress (tickElapsed k) d) := by
  have hps : (samplerUpdates stage d bytes).map (fun u => u.progress) =
      (List.range (5 * d)).map (fun k => clampProgress (tickElapsed k) d) := by
    simp [samplerUpdates, samplerUpdate, List.map_map, Function.comp]
  obtain ⟨n, hn⟩ : ∃ n, 5 * d = n + 1 := ⟨5 * d - 1, by omega⟩
  have hdq : (0 : ℚ) < (d : ℚ) := by exact_mod_cast (by omega : 0 < d)
  refine ⟨?_, ?_, ?_⟩
  · rw [hps, List.chain'_map, hn, List.chain'_range_succ]
    intro m hm
    have h1 : m < 5 * d := by omega
    have h2 : m + 1 < 5 * d := by omega
    rw [clampProgress_tick_eq h1, clampProgress_tick_eq h2]
    rw [div_le_div_iff_of_pos_right (by positivity)]
    push_cast
    linarith
  · rw [hps, hn, List.range_succ, List.map_append, List.map_singleton,
      List.getLast?_concat]
    have hlt : n < 5 * d := by omega
    rw [clampProgress_tick_eq hlt]
    have : ((n : ℚ) + 1) = 5 * (d : ℚ) := by
      have : ((n : ℚ) + 1) = ((n + 1 : ℕ) : ℚ) := by push_cast; ring
      rw [this, ← hn]
      push_cast
      ring
    rw [this, div_self (by positivity)]
  · intro k hk
    rw [hps]
    simp [List.getElem?_map, List.getElem?_range, hk]

/-- Witness for C9: the download sampler of a 10-second phase ends at
progress exactly 1.0. -/
theorem sampler_progress_witness :
    ((samplerUpdates "download" 10 (fun _ => 0)).map
      (fun u => u.progress)).getLast? = some 1 :=
  (sampler_progress "download" 10 (fun _ => 0) (by norm_num)).2.1

/-! ## Claim theorems: session event stream (stage order, terminal
updates, serialized shape) -/

lemma pairwise_rank_list (n : ℕ) :
    List.Pairwise (· ≤ ·)
      (([0, 0, 1] : List ℕ) ++ List.replicate n 1 ++ [1, 2] ++
        List.replicate n 2 ++ [2, 3, 3]) := by
  refine List.pairwise_append.mpr ⟨List.pairwise_append.mpr
    ⟨List.pairwise_append.mpr ⟨List.pairwise_append.mpr
      ⟨by decide, List.pairwise_replicate.mpr (Or.inr le_rfl), ?_⟩,
     by decide, ?_⟩, List.pairwise_replicate.mpr (Or.inr le_rfl), ?_⟩,
    by decide, ?_⟩ <;>
  · intro a ha b hb
    simp [List.mem_append, List.mem_replicate, List.mem_cons] at ha hb
    omega

lemma sessionTrace_rank_map (d : ℕ) (pingMs dlMbps ulMbps : ℚ)
    (dlBytes ulBytes : ℕ → ℕ) :
    (sessionTrace d pingMs dlMbps ulMbps dlBytes ulBytes).map
        (fun u => stageRank u.stage) =
      [0, 0, 1] ++ List.replicate (5 * d) 1 ++ [1, 2] ++
        List.replicate (5 * d) 2 ++ [2, 3, 3] := by
  simp [sessionTrace, runTestTrace, samplerUpdates, samplerUpdate, stageRank,
    List.map_map, Function.comp_def]

/-- Counterexample to C1 as stated: in a real session (`TestStatus` with
its hard-coded 10-second phases) the progress channel carries TWO updates
with stage `"complete"` — one sent by `RunTest` (server.go:400) and a
second `finalUpdate` sent by the handler (speedtest.go:81-86) — not
exactly one. -/
theorem sessionTrace_not_single_complete :
    (sessionTrace 10 0 0 0 (fun _ => 0) (fun _ => 0)).countP
        (fun u => u.stage = "complete") = 2 ∧
    ¬ (sessionTrace 10 0 0 0 (fun _ => 0) (fun _ => 0)).countP
        (fun u => u.stage = "complete") = 1 := by
  constructor <;> decide

/-- C1 as amended.  For every session, the event sequence on the
progress channel is ordered by stage — all latency-stage (`"ping"`)
updates precede all `"download"` updates, which precede all `"upload"`
updates, which precede the `"complete"` updates — and the sequence ends
with exactly TWO terminal `"complete"` updates (the orchestrator's and
the handler's final update) rather than one. -/
theorem sessionTrace_stage_order (d : ℕ) (pingMs dlMbps ulMbps : ℚ)
    (dlBytes ulBytes : ℕ → ℕ) :
    List.Pairwise (fun a b => stageRank a.stage ≤ stageRank b.stage)
      (sessionTrace d pingMs dlMbps ulMbps dlBytes ulBytes) ∧
    (sessionTrace d pingMs dlMbps ulMbps dlBytes ulBytes).countP
      (fun u => u.stage = "complete") = 2 ∧
    (sessionTrace d pingMs dlMbps ulMbps dlBytes ulBytes).getLast? =
      some ⟨"complete", 1, 0, "Test complete"⟩ := by
  refine ⟨?_, ?_, ?_⟩
  · have h := pairwise_rank_list (5 * d)
    rw [← sessionTrace_rank_map d pingMs dlMbps ulMbps dlBytes ulBytes] at h
    exact List.pairwise_map.mp h
  · simp [sessionTrace, runTestTrace, samplerUpdates, samplerUpdate,
      List.countP_append, List.countP_map, Function.comp_def, List.countP_cons]
  · simp [sessionTrace, List.getLast?_concat]

/-- Counterexample to C5 as stated: the serialized form of a session's
progress events does not carry a field named `rateOrLatency` — the
numeric rate/latency field is serialized under the struct tag `"speed"`
(server.go:376). -/
theorem serialized_fields_not_rateOrLatency :
    ((sessionTrace 10 0 0 0 (fun _ => 0) (fun _ => 0)).head?.map
      (fun u => (serializeProgressUpdate u).map Prod.fst)) =
        some ["stage", "progress", "speed", "message"] ∧
    (["stage", "progress", "speed", "message"] : List String) ≠
      ["stage", "progress", "rateOrLatency", "message"] := by
  constructor <;> decide

/-- C5 as amended.  Every serialized progress event of a session carries
exactly the four fields `stage` (string), `progress` (a number in
`[0, 1]`), `speed` (numeric — the spec's `rateOrLatency` role) and
`message` (string), and the terminal event has `stage = "complete"` and
`progress = 1.0`. -/
theorem serialized_fields_shape (d : ℕ) (pingMs dlMbps ulMbps : ℚ)
    (dlBytes ulBytes : ℕ → ℕ) :
    (∀ u ∈ sessionTrace d pingMs dlMbps ulMbps dlBytes ulBytes,
        serializeProgressUpdate u =
          [("stage", .str u.stage), ("progress", .num u.progress),
           ("speed", .num u.speed), ("message", .str u.message)] ∧
        0 ≤ u.progress ∧ u.progress ≤ 1) ∧
    (sessionTrace d pingMs dlMbps ulMbps dlBytes ulBytes).getLast? =
      some ⟨"complete", 1, 0, "Test complete"⟩ := by
  constructor
  · intro u hu
    refine ⟨rfl, ?_⟩
    have hclamp : ∀ e : ℚ, 0 ≤ e →
        0 ≤ clampProgress e d ∧ clampProgress e d ≤ 1 := by
      intro e he
      unfold clampProgress
      by_cases h : e / (d : ℚ) > 1
      · simp [h]
      · refine ⟨?_, ?_⟩
        · rw [if_neg h]
          positivity
        · rw [if_neg h]
          exact not_lt.mp h
    have htick : ∀ k : ℕ, 0 ≤ tickElapsed k := by
      intro k
      unfold tickElapsed
      positivity
    simp only [sessionTrace, runTestTrace, List.append_assoc, List.mem_append,
      List.mem_cons, List.not_mem_nil, or_false, samplerUpdates,
      List.mem_map, List.mem_range] at hu
    rcases hu with (rfl | rfl | rfl) | ⟨k, _, rfl⟩ | (rfl | rfl) | ⟨k, _, rfl⟩ |
      ((rfl | rfl) | rfl)
    · norm_num
    · norm_num
    · norm_num
    · exact hclamp _ (htick k)
    · norm_num
    · norm_num
    · exact hclamp _ (htick k)
    · norm_num
    · norm_num
    · norm_num
  · simp [sessionTrace, List.getLast?_concat]

/-! ## Claim theorem: disconnect during download (C2) -/

/-- C2 evaluated on the code.  When the WebSocket client disconnects
during the download phase of a 10-second-per-phase session
(speedtest.go:57 hard-codes the duration), nothing in `RunTest` or
`TestStatus` observes the disconnect; the observable outcome depends only
on how many updates are still buffered on the capacity-10 progress
channel:

* with 8 or fewer pending updates (e.g. a disconnect near the end of the
  download phase) the test goroutine's "Download test complete" and
  "Starting upload test" sends still succeed, so `testUpload` runs and
  spawns its full worker pool — contradicting the claim that the upload
  phase spawns no further workers and that the remaining phases are
  short-circuited;
* `CreateSpeedTest` is never invoked, for every possible buffer fill —
  but only because the upload sampler fills the never-again-drained
  buffer and the test goroutine then blocks forever on a channel send (a
  goroutine leak), not because of any cancellation. -/
theorem afterDownloadDisconnect_spawns_upload_workers :
    afterDownloadDisconnect 0 4 10 = (4, false) ∧
    afterDownloadDisconnect 8 4 10 = (4, false) ∧
    afterDownloadDisconnect 9 4 10 = (0, false) ∧
    afterDownloadDisconnect 10 4 10 = (0, false) ∧
    ∀ pending maxThreads : ℕ,
      (afterDownloadDisconnect pending maxThreads 10).2 = false := by
  refine ⟨by decide, by decide, by decide, by decide, ?_⟩
  intro pending maxThreads
  unfold afterDownloadDisconnect trySend progressChanCap
  by_cases h1 : pending < 10
  · simp only [if_pos h1]
    by_cases h2 : pending + 1 < 10
    · simp only [if_pos h2]
      have h3 : ¬ min 10 (pending + 1 + 1 + 5 * 10) < 10 := by omega
      simp [h3]
    · simp [h2]
  · simp [h1]

end Casspeed
